import Mathlib

/-!
Verification of the `lago/export.py` disk-export pipeline.

The development shallowly embeds `src/lago/export.py`:

* Python dicts (disk metadata, the `HANDLERS` table, keyword arguments and
  the filesystem) are association lists with first-match lookup and
  replace-first-or-append update, matching Python dict semantics for lookup
  and assignment.
* The external tool adapter (`utils.cp`, `utils.sparse`, `utils.qemu_rebase`,
  `utils.get_hash`, `utils.compress`, `utils.get_qemu_info`, `os.stat`,
  `time.strftime`, `os.path.expandvars`) is a record of abstract functions:
  the pipeline invokes them as black boxes, exactly as the source does.
* Every externally-visible action is also recorded in an event trace, so that
  ordering properties of the pipeline can be stated.
* Each pipeline step may fail: a `FailSpec` injects a failure for any one of
  the steps (modelling a failing external tool or a failing sidecar write),
  and the intrinsic failures of the source (missing file, the layer-depth
  check, `KeyError`/`IndexError` in `rebase`) are raised by the embedding
  itself.  A failing computation carries the state at the point of failure,
  as a raised Python exception does.
-/

namespace LagoExport

/-- First-match lookup in an association list, as Python `d[k]` /`d.get(k)`. -/
def pyGet {α : Type} : List (String × α) → String → Option α
  | [], _ => none
  | (k, v) :: rest, key => if key = k then some v else pyGet rest key

/-- Replace-first-or-append update, as Python `d[k] = v` (dict assignment). -/
def pySet {α : Type} : List (String × α) → String → α → List (String × α)
  | [], key, v => [(key, v)]
  | (k, w) :: rest, key, v =>
      if key = k then (key, v) :: rest else (k, w) :: pySet rest key v

/-- Remove every entry with the given key, as `os.unlink` on the filesystem map. -/
def pyRemove {α : Type} : List (String × α) → String → List (String × α)
  | [], _ => []
  | (k, v) :: rest, key =>
      if k = key then pyRemove rest key else (k, v) :: pyRemove rest key

@[simp] theorem pyGet_pySet_self {α : Type} (l : List (String × α)) (k : String) (v : α) :
    pyGet (pySet l k v) k = some v := by
  induction l with
  | nil => simp [pyGet, pySet]
  | cons hd tl ih =>
      obtain ⟨k', v'⟩ := hd
      by_cases h : k = k' <;> simp [pyGet, pySet, h, ih]

theorem pyGet_pySet_ne {α : Type} (l : List (String × α)) {k k' : String} (v : α)
    (h : k' ≠ k) : pyGet (pySet l k v) k' = pyGet l k' := by
  induction l with
  | nil => simp [pyGet, pySet, h]
  | cons hd tl ih =>
      obtain ⟨k₀, v₀⟩ := hd
      by_cases h₀ : k = k₀
      · subst h₀; simp [pyGet, pySet, h]
      · by_cases h₁ : k' = k₀ <;> simp [pyGet, pySet, h₀, h₁, ih]

@[simp] theorem pyGet_pyRemove_self {α : Type} (l : List (String × α)) (k : String) :
    pyGet (pyRemove l k) k = none := by
  induction l with
  | nil => simp [pyGet, pyRemove]
  | cons hd tl ih =>
      obtain ⟨k', v'⟩ := hd
      by_cases h : k' = k
      · simp [pyRemove, h, ih]
      · have h' : k ≠ k' := fun hk => h hk.symm
        simp [pyRemove, pyGet, h, h', ih]

theorem pyGet_pyRemove_ne {α : Type} (l : List (String × α)) {k k' : String}
    (h : k' ≠ k) : pyGet (pyRemove l k) k' = pyGet l k' := by
  induction l with
  | nil => simp [pyRemove]
  | cons hd tl ih =>
      obtain ⟨k₀, v₀⟩ := hd
      by_cases h₀ : k₀ = k
      · subst h₀
        simp [pyRemove, pyGet, h, ih]
      · by_cases h₁ : k' = k₀ <;> simp [pyRemove, pyGet, h₀, h₁, ih]

theorem pySet_pySet {α : Type} (l : List (String × α)) (k : String) (a b : α) :
    pySet (pySet l k a) k b = pySet l k b := by
  induction l with
  | nil => simp [pySet]
  | cons hd tl ih =>
      obtain ⟨k₀, v₀⟩ := hd
      by_cases h : k = k₀ <;> simp [pySet, h, ih]

/-- Appending a nonempty string changes a string. -/
theorem append_ne_self (s t : String) (ht : t.length ≠ 0) : s ++ t ≠ s := by
  intro h
  have h2 := congrArg String.length h
  rw [String.length_append] at h2
  omega

theorem self_ne_append (s t : String) (ht : t.length ≠ 0) : s ≠ s ++ t :=
  fun h => append_ne_self s t ht h.symm

theorem append_right_ne (s : String) {a b : String} (h : a ≠ b) : s ++ a ≠ s ++ b := by
  intro he
  apply h
  have hd : (s ++ a).data = (s ++ b).data := congrArg String.data he
  rw [String.data_append, String.data_append] at hd
  exact String.ext (List.append_cancel_left hd)

/-- A metadata value: Python JSON scalars used by the export (strings, ints). -/
inductive MVal where
  | s (v : String)
  | n (v : Nat)
deriving DecidableEq

/-- A Python dict of metadata, as in `disk['metadata']` / `exported_metadata`. -/
abbrev PyDict := List (String × MVal)

/-- The disk descriptor, as found in `workdir/current/virt/VM-NAME`:
the keys of the dict that `export.py` reads (`path`, `type`, `format`,
`metadata`). -/
structure Disk where
  path : String
  type : String
  format : String
  metadata : PyDict
deriving DecidableEq

/-- Contents of a file in the modelled filesystem.  Disk-image bytes are
abstracted to a `Nat` identifier; the external tools transform them through
the abstract functions of `Tools`. -/
inductive FileData where
  | image (c : Nat)
  | text (s : String)
  | jsonFile (d : PyDict)
  | xz (c : Nat)
deriving DecidableEq

/-- The filesystem: a finite map from paths to file contents. -/
abbrev FS := List (String × FileData)

/-- One entry of the backing chain returned by
`utils.get_qemu_info(src, backing_chain=True)`: the embedding keeps the only
key `export.py` reads, `'backing-filename'` (absent for a base image). -/
structure QemuEntry where
  backing_filename : Option String
deriving DecidableEq

/-- Externally-visible actions of the pipeline, recorded in order. -/
inductive Event where
  | cp (src dst : String)
  | sparse (dst fmt : String)
  | qemuInfo (p : String)
  | qemuRebase (target backing : String) (safe : Bool)
  | getHash (p algo : String)
  | writeFile (p : String)
  | compressEv (p : String) (blockSize : Nat)
  | unlink (p : String)
  | rmtree (p : String)
deriving DecidableEq

/-- Filesystem plus the trace of externally-visible actions so far. -/
structure World where
  fs : FS
  trace : List Event
deriving DecidableEq

/-- `b` starts with `a`, on the character lists. -/
def strStartsWith (s pre : String) : Bool :=
  pre.data.isPrefixOf s.data

/-- `s` ends with `suf`, on the character lists. -/
def strEndsWith (s suf : String) : Bool :=
  suf.data.reverse.isPrefixOf s.data.reverse

/-- `shutil.rmtree(p, ignore_errors=True)` — the Rollback Controller's
cleanup action.  `rmtree` removes a directory tree; on a path holding a
regular file it raises `NotADirectoryError`, and on a missing path
`FileNotFoundError`, both of which `ignore_errors=True` swallows, leaving
the filesystem unchanged.  Every entry of the modelled filesystem is a
regular file — in particular the destination artifact `utils.cp`
creates — so the call never removes anything: whether `p` exists (the
`NotADirectoryError` branch) or not (the `FileNotFoundError` branch), the
filesystem comes back unchanged. -/
def rmtreeFS (fs : FS) (p : String) : FS :=
  match pyGet fs p with
  | some _ => fs
  | none => fs

@[simp] theorem rmtreeFS_eq (fs : FS) (p : String) : rmtreeFS fs p = fs := by
  unfold rmtreeFS
  split <;> rfl

/-- Errors raised by the pipeline, after the error kinds of the source:
`utils.LagoUserException` (with its message), Python `KeyError` and
`IndexError`, and the failure of an external tool / sidecar write. -/
inductive Err where
  | lagoUserException (msg : String)
  | keyError (k : String)
  | indexError
  | toolFailure (op : String)
deriving DecidableEq

/-- The external tool adapter: the black-box collaborators of the pipeline.
`sparseFn`, `rebaseFn`, `compressFn` transform image bytes; `hashFn` is the
digest, `sizeFn` is `os.stat(..).st_size`, `today` is
`time.strftime("%Y%m%d.0")`, `expandvars` is `os.path.expandvars`, and
`qemu_info` is the backing chain returned by
`utils.get_qemu_info(p, backing_chain=True)`. -/
structure Tools where
  expandvars : String → String
  sparseFn : Nat → String → Nat
  rebaseFn : Nat → String → Bool → Nat
  hashFn : Nat → String → String
  compressFn : Nat → Nat
  sizeFn : Nat → Nat
  today : String
  qemu_info : String → List QemuEntry

/-- Failure injection for the fallible operations of the pipeline: a `some e`
entry makes the corresponding step raise `e` (a failing external tool or a
failing sidecar write), modelling "simulate failure at each step
independently". -/
structure FailSpec where
  copyE : Option Err
  sparseE : Option Err
  rebaseE : Option Err
  shaE : Option Err
  updateE : Option Err
  writeE : Option Err
  compressE : Option Err
deriving DecidableEq

/-- Result of a fallible, state-mutating Python computation: either a normal
return or a raised exception; both carry the state reached. -/
inductive PyResult (σ : Type) where
  | ok (s : σ)
  | exn (e : Err) (s : σ)
deriving DecidableEq

/-- The state reached by a computation, whether it returned or raised. -/
def PyResult.state {σ : Type} : PyResult σ → σ
  | .ok s => s
  | .exn _ s => s

def PyResult.isOk {σ : Type} : PyResult σ → Bool
  | .ok _ => true
  | .exn _ _ => false

/-- Sequencing of fallible computations: a raised exception aborts the rest,
as consecutive statements inside the `with` block of `export`. -/
def pseq {σ : Type} (r : PyResult σ) (f : σ → PyResult σ) : PyResult σ :=
  match r with
  | .ok s => f s
  | .exn e s => .exn e s

@[simp] theorem pseq_ok {σ : Type} (s : σ) (f : σ → PyResult σ) :
    pseq (.ok s) f = f s := rfl

@[simp] theorem pseq_exn {σ : Type} (e : Err) (s : σ) (f : σ → PyResult σ) :
    pseq (.exn e s) f = .exn e s := rfl

/-- `os.path.basename` (posix): the part after the last slash, computed on
the character list. -/
def pyBasename (s : String) : String :=
  ⟨(s.data.reverse.takeWhile (fun c => c ≠ '/')).reverse⟩

/-- `os.path.join` for two posix components. -/
def pyJoin (a b : String) : String :=
  if strStartsWith b "/" then b
  else if a = "" then b
  else if strEndsWith a "/" then a ++ b
  else a ++ "/" ++ b

/-- Python's `s.split(':', 1)[1]`: everything after the first colon, or the
`IndexError` (`none`) when the string has no colon. -/
def afterFirstColon (s : String) : Option String :=
  match s.data.dropWhile (fun c => c ≠ ':') with
  | [] => none
  | _ :: rest => some ⟨rest⟩

/-- Reading a path expected to hold a disk image (the sole way the pipeline
reads files): `some c` when the path holds image bytes `c`. -/
def asImage : Option FileData → Option Nat
  | some (.image c) => some c
  | _ => none

@[simp] theorem asImage_eq_some {x : Option FileData} {c : Nat} :
    asImage x = some c ↔ x = some (.image c) := by
  cases x with
  | none => simp [asImage]
  | some fd => cases fd <;> simp [asImage]

/-- The base export manager, after `DiskExportManager.__init__`:
`src`, `name`, `dst`, `dist_type` (the source's field name), the source disk
descriptor, the export metadata and the compression flag. -/
structure DiskExportManager where
  src : String
  name : String
  dst : String
  dist_type : String
  disk : Disk
  exported_metadata : PyDict
  do_compress : Bool
deriving DecidableEq

/-- `DiskExportManager.__init__`: expand environment variables in the source
path and destination directory, derive `name` and `dst`, and seed
`exported_metadata` with a deep copy of `disk['metadata']` (a value copy in
this embedding). -/
def DiskExportManager.init (t : Tools) (dst : String) (disk_type : String)
    (disk : Disk) (do_compress : Bool) : DiskExportManager :=
  let src := t.expandvars disk.path
  let name := pyBasename src
  { src := src
    name := name
    dst := pyJoin (t.expandvars dst) name
    dist_type := disk_type
    disk := disk
    exported_metadata := disk.metadata
    do_compress := do_compress }

/-- The manager for `type: template` disks: the base fields plus
`standalone` (from `kwargs['standalone']`) and the backing chain
`src_qemu_info` obtained at construction. -/
structure TemplateExportManager extends DiskExportManager where
  standalone : Bool
  src_qemu_info : List QemuEntry
deriving DecidableEq

/-- State threaded through the base pipeline: the manager and the world. -/
abbrev MState := DiskExportManager × World

/-- State threaded through the template pipeline. -/
abbrev TState := TemplateExportManager × World

/-- `DiskExportManager.copy`: `utils.cp(self.src, self.dst)`, a
sparseness-preserving copy of the source image to the destination path. -/
def DiskExportManager.copy (t : Tools) (f : FailSpec) (s : MState) :
    PyResult MState :=
  match f.copyE with
  | some e => .exn e s
  | none =>
    match asImage (pyGet s.2.fs s.1.src) with
    | some c =>
        .ok (s.1, ⟨pySet s.2.fs s.1.dst (.image c),
                   s.2.trace ++ [.cp s.1.src s.1.dst]⟩)
    | none => .exn (.toolFailure "cp") s

/-- `DiskExportManager.sparse`: `utils.sparse(self.dst, self.disk['format'])`,
in-place reclamation of unused space. -/
def DiskExportManager.sparse (t : Tools) (f : FailSpec) (s : MState) :
    PyResult MState :=
  match f.sparseE with
  | some e => .exn e s
  | none =>
    match asImage (pyGet s.2.fs s.1.dst) with
    | some c =>
        .ok (s.1, ⟨pySet s.2.fs s.1.dst (.image (t.sparseFn c s.1.disk.format)),
                   s.2.trace ++ [.sparse s.1.dst s.1.disk.format]⟩)
    | none => .exn (.toolFailure "sparse") s

/-- `DiskExportManager.calc_sha(checksum)`: compute
`utils.get_hash(self.dst, checksum)`, write it to `self.dst + '.hash'`, and
record it under key `checksum` in `exported_metadata`. -/
def DiskExportManager.calc_sha (t : Tools) (f : FailSpec) (checksum : String)
    (s : MState) : PyResult MState :=
  match f.shaE with
  | some e => .exn e s
  | none =>
    match asImage (pyGet s.2.fs s.1.dst) with
    | some c =>
        let sha := t.hashFn c checksum
        let md := pySet s.1.exported_metadata checksum (.s sha)
        .ok ({ s.1 with exported_metadata := md },
             ⟨pySet s.2.fs (s.1.dst ++ ".hash") (.text sha),
              s.2.trace ++ [.getHash s.1.dst checksum,
                            .writeFile (s.1.dst ++ ".hash")]⟩)
    | none => .exn (.toolFailure "get_hash") s

/-- `DiskExportManager.update_lago_metadata`: set `size`
(`os.stat(self.dst).st_size`), `name` and `version`
(`time.strftime("%Y%m%d.0")`) in `exported_metadata`. -/
def DiskExportManager.update_lago_metadata (t : Tools) (f : FailSpec)
    (s : MState) : PyResult MState :=
  match f.updateE with
  | some e => .exn e s
  | none =>
    match asImage (pyGet s.2.fs s.1.dst) with
    | some c =>
        let md := pySet (pySet (pySet s.1.exported_metadata
                    "size" (.n (t.sizeFn c)))
                    "name" (.s s.1.name))
                    "version" (.s t.today)
        .ok ({ s.1 with exported_metadata := md }, s.2)
    | none => .exn (.toolFailure "stat") s

/-- `DiskExportManager.write_lago_metadata`: `json.dump(exported_metadata)`
into `self.dst + '.metadata'`. -/
def DiskExportManager.write_lago_metadata (t : Tools) (f : FailSpec)
    (s : MState) : PyResult MState :=
  match f.writeE with
  | some e => .exn e s
  | none =>
      .ok (s.1, ⟨pySet s.2.fs (s.1.dst ++ ".metadata")
                   (.jsonFile s.1.exported_metadata),
                 s.2.trace ++ [.writeFile (s.1.dst ++ ".metadata")]⟩)

/-- `DiskExportManager.compress`: a no-op when `do_compress` is false;
otherwise `utils.compress(self.dst, 16777216)` followed by
`os.unlink(self.dst)`.

Modelled from the spec: `utils.compress` lives in `lago/utils.py`, which is
not under `src/`.  Per the spec (§4.3 step 7 and §6) the tool produces a
compressed form of the destination file while the original still exists
afterwards — the caller then removes the "now-redundant uncompressed file"
with `os.unlink(self.dst)`, and a compressed artifact must remain after a
successful export.  The compressed form is therefore written to a sibling
path, modelled as `self.dst + ".xz"`. -/
def DiskExportManager.compress (t : Tools) (f : FailSpec) (s : MState) :
    PyResult MState :=
  if s.1.do_compress = false then .ok s
  else
    match f.compressE with
    | some e => .exn e s
    | none =>
      match asImage (pyGet s.2.fs s.1.dst) with
      | some c =>
          .ok (s.1, ⟨pyRemove
                       (pySet s.2.fs (s.1.dst ++ ".xz") (.xz (t.compressFn c)))
                       s.1.dst,
                     s.2.trace ++ [.compressEv s.1.dst 16777216,
                                   .unlink s.1.dst]⟩)
      | none => .exn (.toolFailure "compress") s

/-- The `LagoUserException` message of the layer-depth check in
`TemplateExportManager.rebase`. -/
def layerDepthMsg : String :=
  "Layered export is currently supported for one layer only.  " ++
  "You can try to use Standalone export."

/-- `TemplateExportManager.rebase`: no-op for a chain of length 1;
`utils.qemu_rebase(target=self.dst, backing_file="")` when standalone;
otherwise the depth check (`LagoUserException` when the chain is longer
than 2) and the unsafe rebase onto
`'./' + os.path.basename(parent.split(':', 1)[1])` where `parent` is
`self.src_qemu_info[0]['backing-filename']`. -/
def TemplateExportManager.rebase (t : Tools) (f : FailSpec) (s : TState) :
    PyResult TState :=
  match f.rebaseE with
  | some e => .exn e s
  | none =>
    if s.1.src_qemu_info.length = 1 then .ok s
    else if s.1.standalone then
      match asImage (pyGet s.2.fs s.1.dst) with
      | some c =>
          .ok (s.1, ⟨pySet s.2.fs s.1.dst (.image (t.rebaseFn c "" true)),
                     s.2.trace ++ [.qemuRebase s.1.dst "" true]⟩)
      | none => .exn (.toolFailure "qemu_rebase") s
    else if 2 < s.1.src_qemu_info.length then
      .exn (.lagoUserException layerDepthMsg) s
    else
      match s.1.src_qemu_info with
      | [] => .exn .indexError s
      | e0 :: _ =>
        match e0.backing_filename with
        | none => .exn (.keyError "backing-filename") s
        | some bf =>
          match afterFirstColon bf with
          | none => .exn .indexError s
          | some p =>
            let parent := "./" ++ pyBasename p
            match asImage (pyGet s.2.fs s.1.dst) with
            | some c =>
                .ok (s.1, ⟨pySet s.2.fs s.1.dst
                             (.image (t.rebaseFn c parent false)),
                           s.2.trace ++ [.qemuRebase s.1.dst parent false]⟩)
            | none => .exn (.toolFailure "qemu_rebase") s

/-- Run a base-class step inside the template pipeline. -/
def liftT (F : MState → PyResult MState) (s : TState) : PyResult TState :=
  match F (s.1.toDiskExportManager, s.2) with
  | .ok (m', w') => .ok ({ s.1 with toDiskExportManager := m' }, w')
  | .exn e (m', w') => .exn e ({ s.1 with toDiskExportManager := m' }, w')

/-- `TemplateExportManager.update_lago_metadata`: the base enrichment, then
`exported_metadata['base']` set to `'None'` when standalone and to
`os.path.basename(self.src)` otherwise. -/
def TemplateExportManager.update_lago_metadata (t : Tools) (f : FailSpec)
    (s : TState) : PyResult TState :=
  match DiskExportManager.update_lago_metadata t f (s.1.toDiskExportManager, s.2) with
  | .ok (m', w') =>
      let b : MVal :=
        if s.1.standalone then .s "None" else .s (pyBasename s.1.src)
      let m2 := { m' with exported_metadata := pySet m'.exported_metadata "base" b }
      .ok ({ s.1 with toDiskExportManager := m2 }, w')
  | .exn e (m', w') => .exn e ({ s.1 with toDiskExportManager := m' }, w')

/-- The cleanup registered with the rollback context:
`shutil.rmtree(self.dst, ignore_errors=True)`. -/
def rollbackW (w : World) (p : String) : World :=
  ⟨rmtreeFS w.fs p, w.trace ++ [.rmtree p]⟩

/-- The step sequence inside the `RollbackContext` of
`FileExportManager.export`: copy, sparse, calc_sha('sha1'),
update_lago_metadata, write_lago_metadata, compress. -/
def FileExportManager.exportSteps (t : Tools) (f : FailSpec) (s : MState) :
    PyResult MState :=
  pseq (DiskExportManager.copy t f s) (fun s1 =>
  pseq (DiskExportManager.sparse t f s1) (fun s2 =>
  pseq (DiskExportManager.calc_sha t f "sha1" s2) (fun s3 =>
  pseq (DiskExportManager.update_lago_metadata t f s3) (fun s4 =>
  pseq (DiskExportManager.write_lago_metadata t f s4) (fun s5 =>
  DiskExportManager.compress t f s5)))))

/-- `FileExportManager.export`: the step sequence under the rollback
context — on success `rollback.clear()` disarms the cleanup; on an exception
the cleanup removes the destination path and the original error propagates. -/
def FileExportManager.export (t : Tools) (f : FailSpec) (s : MState) :
    PyResult MState :=
  match FileExportManager.exportSteps t f s with
  | .ok s' => .ok s'
  | .exn e (m', w') => .exn e (m', rollbackW w' m'.dst)

/-- The steps of the template pipeline after the rebase phase:
calc_sha('sha1'), update_lago_metadata (the template override),
write_lago_metadata, compress. -/
def TemplateExportManager.tailSteps (t : Tools) (f : FailSpec) (s : TState) :
    PyResult TState :=
  pseq (liftT (DiskExportManager.calc_sha t f "sha1") s) (fun s4 =>
  pseq (TemplateExportManager.update_lago_metadata t f s4) (fun s5 =>
  pseq (liftT (DiskExportManager.write_lago_metadata t f) s5) (fun s6 =>
  liftT (DiskExportManager.compress t f) s6)))

/-- The step sequence inside the `RollbackContext` of
`TemplateExportManager.export`: copy, sparse, rebase, calc_sha('sha1'),
update_lago_metadata (the template override), write_lago_metadata,
compress. -/
def TemplateExportManager.exportSteps (t : Tools) (f : FailSpec) (s : TState) :
    PyResult TState :=
  pseq (liftT (DiskExportManager.copy t f) s) (fun s1 =>
  pseq (liftT (DiskExportManager.sparse t f) s1) (fun s2 =>
  pseq (TemplateExportManager.rebase t f s2) (fun s3 =>
  TemplateExportManager.tailSteps t f s3)))

/-- `TemplateExportManager.export`: the template step sequence under the
rollback context. -/
def TemplateExportManager.export (t : Tools) (f : FailSpec) (s : TState) :
    PyResult TState :=
  match TemplateExportManager.exportSteps t f s with
  | .ok s' => .ok s'
  | .exn e (tm', w') => .exn e (tm', rollbackW w' tm'.dst)

/-- The two pipeline variants. -/
inductive Handler where
  | fileHandler
  | templateHandler
deriving DecidableEq

/-- The `HANDLERS` dispatch table of the source. -/
def HANDLERS : List (String × Handler) :=
  [("file", .fileHandler), ("empty", .fileHandler),
   ("template", .templateHandler)]

/-- A fully-constructed pipeline variant instance. -/
inductive ExportInstance where
  | plain (m : DiskExportManager)
  | template (m : TemplateExportManager)
deriving DecidableEq

/-- Result of `get_instance_by_type`: an instance, or a raised error; both
carry the world (construction's only side effect is the backing chain
inspection of the template variant). -/
inductive CtorResult where
  | ok (inst : ExportInstance) (w : World)
  | exn (e : Err) (w : World)
deriving DecidableEq

/-- `DiskExportManager.get_instance_by_type`: look the disk type up in
`HANDLERS`, raise `LagoUserException` naming the type when absent, and
otherwise construct the variant.  The template constructor reads
`kwargs['standalone']` (a `KeyError` when missing) and then inspects the
source image's backing chain. -/
def DiskExportManager.get_instance_by_type (t : Tools) (dst : String)
    (disk : Disk) (do_compress : Bool) (kwargs : List (String × Bool))
    (w : World) : CtorResult :=
  match pyGet HANDLERS disk.type with
  | none =>
      .exn (.lagoUserException
              ("Export is not supported for disk type " ++ disk.type)) w
  | some .fileHandler =>
      .ok (.plain (DiskExportManager.init t dst disk.type disk do_compress)) w
  | some .templateHandler =>
      let base := DiskExportManager.init t dst disk.type disk do_compress
      match pyGet kwargs "standalone" with
      | none => .exn (.keyError "standalone") w
      | some st =>
          .ok (.template { toDiskExportManager := base,
                           standalone := st,
                           src_qemu_info := t.qemu_info base.src })
              ⟨w.fs, w.trace ++ [.qemuInfo base.src]⟩

/-- Everything of a manager except `exported_metadata` — the fields no
pipeline step ever writes. -/
def mFrame (a b : DiskExportManager) : Prop :=
  b.src = a.src ∧ b.name = a.name ∧ b.dst = a.dst ∧
  b.dist_type = a.dist_type ∧ b.disk = a.disk ∧ b.do_compress = a.do_compress

theorem mFrame_refl (a : DiskExportManager) : mFrame a a :=
  ⟨rfl, rfl, rfl, rfl, rfl, rfl⟩

theorem mFrame_trans {a b c : DiskExportManager}
    (h1 : mFrame a b) (h2 : mFrame b c) : mFrame a c := by
  obtain ⟨x1, x2, x3, x4, x5, x6⟩ := h1
  obtain ⟨y1, y2, y3, y4, y5, y6⟩ := h2
  exact ⟨y1.trans x1, y2.trans x2, y3.trans x3, y4.trans x4,
         y5.trans x5, y6.trans x6⟩

theorem copy_frame (t : Tools) (f : FailSpec) (s : MState) :
    mFrame s.1 ((DiskExportManager.copy t f s).state).1 := by
  unfold DiskExportManager.copy
  split
  · exact mFrame_refl _
  · split
    · simp [PyResult.state, mFrame]
    · exact mFrame_refl _

theorem sparse_frame (t : Tools) (f : FailSpec) (s : MState) :
    mFrame s.1 ((DiskExportManager.sparse t f s).state).1 := by
  unfold DiskExportManager.sparse
  split
  · exact mFrame_refl _
  · split
    · simp [PyResult.state, mFrame]
    · exact mFrame_refl _

theorem calc_sha_frame (t : Tools) (f : FailSpec) (checksum : String)
    (s : MState) :
    mFrame s.1 ((DiskExportManager.calc_sha t f checksum s).state).1 := by
  unfold DiskExportManager.calc_sha
  split
  · exact mFrame_refl _
  · split
    · simp [PyResult.state, mFrame]
    · exact mFrame_refl _

theorem update_frame (t : Tools) (f : FailSpec) (s : MState) :
    mFrame s.1 ((DiskExportManager.update_lago_metadata t f s).state).1 := by
  unfold DiskExportManager.update_lago_metadata
  split
  · exact mFrame_refl _
  · split
    · simp [PyResult.state, mFrame]
    · exact mFrame_refl _

theorem write_frame (t : Tools) (f : FailSpec) (s : MState) :
    mFrame s.1 ((DiskExportManager.write_lago_metadata t f s).state).1 := by
  unfold DiskExportManager.write_lago_metadata
  split
  · exact mFrame_refl _
  · simp [PyResult.state, mFrame]

theorem compress_frame (t : Tools) (f : FailSpec) (s : MState) :
    mFrame s.1 ((DiskExportManager.compress t f s).state).1 := by
  unfold DiskExportManager.compress
  split
  · exact mFrame_refl _
  · split
    · exact mFrame_refl _
    · split
      · simp [PyResult.state, mFrame]
      · exact mFrame_refl _

theorem fileExportSteps_frame (t : Tools) (f : FailSpec) (s : MState) :
    mFrame s.1 ((FileExportManager.exportSteps t f s).state).1 := by
  unfold FileExportManager.exportSteps
  have h1 := copy_frame t f s
  cases hc : DiskExportManager.copy t f s with
  | exn e s1 =>
      rw [hc] at h1
      simpa [PyResult.state] using h1
  | ok s1 =>
      rw [hc] at h1
      simp only [PyResult.state] at h1
      simp only [pseq_ok]
      have h2 := sparse_frame t f s1
      cases hs : DiskExportManager.sparse t f s1 with
      | exn e s2 =>
          rw [hs] at h2
          simp only [PyResult.state] at h2 ⊢
          exact mFrame_trans h1 h2
      | ok s2 =>
          rw [hs] at h2
          simp only [PyResult.state] at h2
          simp only [pseq_ok]
          have h3 := calc_sha_frame t f "sha1" s2
          cases hsh : DiskExportManager.calc_sha t f "sha1" s2 with
          | exn e s3 =>
              rw [hsh] at h3
              simp only [PyResult.state] at h3 ⊢
              exact mFrame_trans (mFrame_trans h1 h2) h3
          | ok s3 =>
              rw [hsh] at h3
              simp only [PyResult.state] at h3
              simp only [pseq_ok]
              have h4 := update_frame t f s3
              cases hu : DiskExportManager.update_lago_metadata t f s3 with
              | exn e s4 =>
                  rw [hu] at h4
                  simp only [PyResult.state] at h4 ⊢
                  exact mFrame_trans (mFrame_trans (mFrame_trans h1 h2) h3) h4
              | ok s4 =>
                  rw [hu] at h4
                  simp only [PyResult.state] at h4
                  simp only [pseq_ok]
                  have h5 := write_frame t f s4
                  cases hw : DiskExportManager.write_lago_metadata t f s4 with
                  | exn e s5 =>
                      rw [hw] at h5
                      simp only [PyResult.state] at h5 ⊢
                      exact mFrame_trans (mFrame_trans (mFrame_trans
                        (mFrame_trans h1 h2) h3) h4) h5
                  | ok s5 =>
                      rw [hw] at h5
                      simp only [PyResult.state] at h5
                      simp only [pseq_ok]
                      have h6 := compress_frame t f s5
                      exact mFrame_trans (mFrame_trans (mFrame_trans
                        (mFrame_trans (mFrame_trans h1 h2) h3) h4) h5) h6

theorem fileExport_state_frame (t : Tools) (f : FailSpec) (s : MState) :
    mFrame s.1 ((FileExportManager.export t f s).state).1 := by
  unfold FileExportManager.export
  have h := fileExportSteps_frame t f s
  cases hs : FileExportManager.exportSteps t f s with
  | ok s' =>
      rw [hs] at h
      simpa [PyResult.state] using h
  | exn e s' =>
      rw [hs] at h
      obtain ⟨m', w'⟩ := s'
      simpa [PyResult.state] using h

/-- Everything of a template manager the pipeline never writes. -/
def tFrame (a b : TemplateExportManager) : Prop :=
  mFrame a.toDiskExportManager b.toDiskExportManager ∧
  b.standalone = a.standalone ∧ b.src_qemu_info = a.src_qemu_info

theorem tFrame_refl (a : TemplateExportManager) : tFrame a a :=
  ⟨mFrame_refl _, rfl, rfl⟩

theorem tFrame_trans {a b c : TemplateExportManager}
    (h1 : tFrame a b) (h2 : tFrame b c) : tFrame a c :=
  ⟨mFrame_trans h1.1 h2.1, h2.2.1.trans h1.2.1, h2.2.2.trans h1.2.2⟩

theorem liftT_frame (F : MState → PyResult MState)
    (hF : ∀ s, mFrame s.1 ((F s).state).1) (s : TState) :
    tFrame s.1 ((liftT F s).state).1 := by
  unfold liftT
  have h := hF (s.1.toDiskExportManager, s.2)
  cases hc : F (s.1.toDiskExportManager, s.2) with
  | ok s' =>
      rw [hc] at h
      obtain ⟨m', w'⟩ := s'
      simp only [PyResult.state] at h ⊢
      exact ⟨h, rfl, rfl⟩
  | exn e s' =>
      rw [hc] at h
      obtain ⟨m', w'⟩ := s'
      simp only [PyResult.state] at h ⊢
      exact ⟨h, rfl, rfl⟩

theorem rebase_frame (t : Tools) (f : FailSpec) (s : TState) :
    tFrame s.1 ((TemplateExportManager.rebase t f s).state).1 := by
  unfold TemplateExportManager.rebase
  split
  · exact tFrame_refl _
  · split
    · exact tFrame_refl _
    · split
      · split
        · simp [PyResult.state, tFrame, mFrame]
        · exact tFrame_refl _
      · split
        · exact tFrame_refl _
        · split
          · exact tFrame_refl _
          · split
            · exact tFrame_refl _
            · split
              · exact tFrame_refl _
              · split
                · simp [PyResult.state, tFrame, mFrame]
                · exact tFrame_refl _

theorem template_update_frame (t : Tools) (f : FailSpec) (s : TState) :
    tFrame s.1 ((TemplateExportManager.update_lago_metadata t f s).state).1 := by
  unfold TemplateExportManager.update_lago_metadata
  have h := update_frame t f (s.1.toDiskExportManager, s.2)
  cases hc : DiskExportManager.update_lago_metadata t f
      (s.1.toDiskExportManager, s.2) with
  | ok s' =>
      rw [hc] at h
      obtain ⟨m', w'⟩ := s'
      simp only [PyResult.state] at h ⊢
      refine ⟨?_, rfl, rfl⟩
      obtain ⟨x1, x2, x3, x4, x5, x6⟩ := h
      exact ⟨x1, x2, x3, x4, x5, x6⟩
  | exn e s' =>
      rw [hc] at h
      obtain ⟨m', w'⟩ := s'
      simp only [PyResult.state] at h ⊢
      exact ⟨h, rfl, rfl⟩

theorem templateTailSteps_frame (t : Tools) (f : FailSpec) (s : TState) :
    tFrame s.1 ((TemplateExportManager.tailSteps t f s).state).1 := by
  unfold TemplateExportManager.tailSteps
  have h4 := liftT_frame _ (calc_sha_frame t f "sha1") s
  cases hsh : liftT (DiskExportManager.calc_sha t f "sha1") s with
  | exn e s4 =>
      rw [hsh] at h4
      simpa [PyResult.state] using h4
  | ok s4 =>
      rw [hsh] at h4
      simp only [PyResult.state] at h4
      simp only [pseq_ok]
      have h5 := template_update_frame t f s4
      cases hu : TemplateExportManager.update_lago_metadata t f s4 with
      | exn e s5 =>
          rw [hu] at h5
          simp only [PyResult.state] at h5 ⊢
          exact tFrame_trans h4 h5
      | ok s5 =>
          rw [hu] at h5
          simp only [PyResult.state] at h5
          simp only [pseq_ok]
          have h6 := liftT_frame _ (write_frame t f) s5
          cases hw : liftT (DiskExportManager.write_lago_metadata t f) s5 with
          | exn e s6 =>
              rw [hw] at h6
              simp only [PyResult.state] at h6 ⊢
              exact tFrame_trans (tFrame_trans h4 h5) h6
          | ok s6 =>
              rw [hw] at h6
              simp only [PyResult.state] at h6
              simp only [pseq_ok]
              have h7 := liftT_frame _ (compress_frame t f) s6
              exact tFrame_trans (tFrame_trans (tFrame_trans h4 h5) h6) h7

theorem templateExportSteps_frame (t : Tools) (f : FailSpec) (s : TState) :
    tFrame s.1 ((TemplateExportManager.exportSteps t f s).state).1 := by
  unfold TemplateExportManager.exportSteps
  have h1 := liftT_frame _ (copy_frame t f) s
  cases hc : liftT (DiskExportManager.copy t f) s with
  | exn e s1 =>
      rw [hc] at h1
      simpa [PyResult.state] using h1
  | ok s1 =>
      rw [hc] at h1
      simp only [PyResult.state] at h1
      simp only [pseq_ok]
      have h2 := liftT_frame _ (sparse_frame t f) s1
      cases hs : liftT (DiskExportManager.sparse t f) s1 with
      | exn e s2 =>
          rw [hs] at h2
          simp only [PyResult.state] at h2 ⊢
          exact tFrame_trans h1 h2
      | ok s2 =>
          rw [hs] at h2
          simp only [PyResult.state] at h2
          simp only [pseq_ok]
          have h3 := rebase_frame t f s2
          cases hr : TemplateExportManager.rebase t f s2 with
          | exn e s3 =>
              rw [hr] at h3
              simp only [PyResult.state] at h3 ⊢
              exact tFrame_trans (tFrame_trans h1 h2) h3
          | ok s3 =>
              rw [hr] at h3
              simp only [PyResult.state] at h3
              simp only [pseq_ok]
              have h4 := templateTailSteps_frame t f s3
              exact tFrame_trans (tFrame_trans (tFrame_trans h1 h2) h3) h4

theorem templateExport_state_frame (t : Tools) (f : FailSpec) (s : TState) :
    tFrame s.1 ((TemplateExportManager.export t f s).state).1 := by
  unfold TemplateExportManager.export
  have h := templateExportSteps_frame t f s
  cases hs : TemplateExportManager.exportSteps t f s with
  | ok s' =>
      rw [hs] at h
      simpa [PyResult.state] using h
  | exn e s' =>
      rw [hs] at h
      obtain ⟨m', w'⟩ := s'
      simpa [PyResult.state] using h

/-- Key inequalities used throughout: a path differs from that path with a
nonempty suffix appended. -/
theorem dst_ne_hash (s : String) : s ≠ s ++ ".hash" :=
  self_ne_append s ".hash" (by decide)

theorem dst_ne_metadata (s : String) : s ≠ s ++ ".metadata" :=
  self_ne_append s ".metadata" (by decide)

theorem dst_ne_xz (s : String) : s ≠ s ++ ".xz" :=
  self_ne_append s ".xz" (by decide)

theorem hash_ne_metadata (s : String) : s ++ ".hash" ≠ s ++ ".metadata" :=
  append_right_ne s (by decide)

theorem hash_ne_xz (s : String) : s ++ ".hash" ≠ s ++ ".xz" :=
  append_right_ne s (by decide)

theorem metadata_ne_xz (s : String) : s ++ ".metadata" ≠ s ++ ".xz" :=
  append_right_ne s (by decide)

theorem hash_ne_dst (s : String) : s ++ ".hash" ≠ s :=
  append_ne_self s ".hash" (by decide)

theorem metadata_ne_dst (s : String) : s ++ ".metadata" ≠ s :=
  append_ne_self s ".metadata" (by decide)

theorem xz_ne_dst (s : String) : s ++ ".xz" ≠ s :=
  append_ne_self s ".xz" (by decide)

/-- The metadata dict accumulated by a successful run of the shared steps,
for a destination image whose content after the sparsify/rebase phase is
`rc`: the `sha1` entry from `calc_sha`, then `size`, `name`, `version` from
`update_lago_metadata`. -/
def afterMd (t : Tools) (m : DiskExportManager) (rc : Nat) : PyDict :=
  pySet (pySet (pySet (pySet m.exported_metadata
    "sha1" (.s (t.hashFn rc "sha1")))
    "size" (.n (t.sizeFn rc)))
    "name" (.s m.name))
    "version" (.s t.today)

/-- The template pipeline's metadata: the shared enrichment plus `base`. -/
def templateMd (t : Tools) (tm : TemplateExportManager) (rc : Nat) : PyDict :=
  pySet (afterMd t tm.toDiskExportManager rc) "base"
    (if tm.standalone then .s "None" else .s (pyBasename tm.src))

/-- The filesystem after a successful run of the steps from `calc_sha` on,
over a filesystem `fs0` whose destination already holds content `rc`. -/
def tailFinalFs (t : Tools) (m : DiskExportManager) (fs0 : FS) (rc : Nat)
    (md : PyDict) : FS :=
  let fs3 := pySet fs0 (m.dst ++ ".hash") (.text (t.hashFn rc "sha1"))
  let fs4 := pySet fs3 (m.dst ++ ".metadata") (.jsonFile md)
  if m.do_compress then
    pyRemove (pySet fs4 (m.dst ++ ".xz") (.xz (t.compressFn rc))) m.dst
  else fs4

/-- The filesystem after a successful export over initial filesystem `fs0`,
where `rc` is the destination content after the sparsify/rebase phase and
`md` the metadata dict persisted. -/
def exportFinalFs (t : Tools) (m : DiskExportManager) (fs0 : FS) (rc : Nat)
    (md : PyDict) : FS :=
  tailFinalFs t m (pySet fs0 m.dst (.image rc)) rc md

/-- The events of a successful run of the steps from `calc_sha` on. -/
def exportTailEvents (m : DiskExportManager) : List Event :=
  [.getHash m.dst "sha1", .writeFile (m.dst ++ ".hash"),
   .writeFile (m.dst ++ ".metadata")] ++
  (if m.do_compress then [.compressEv m.dst 16777216, .unlink m.dst] else [])

/-- Inversion of a successful plain export: the failure injections are all
unset, the source image exists, and the final manager, filesystem and trace
are exactly the straight-line results of the six steps. -/
theorem fileExportSteps_ok_inv (t : Tools) (f : FailSpec)
    (m : DiskExportManager) (w : World) (m' : DiskExportManager) (w' : World)
    (h : FileExportManager.exportSteps t f (m, w) = .ok (m', w')) :
    ∃ c, f.copyE = none ∧ f.sparseE = none ∧ f.shaE = none ∧
      f.updateE = none ∧ f.writeE = none ∧
      (m.do_compress = true → f.compressE = none) ∧
      asImage (pyGet w.fs m.src) = some c ∧
      m' = { m with exported_metadata :=
               afterMd t m (t.sparseFn c m.disk.format) } ∧
      w' = ⟨exportFinalFs t m w.fs (t.sparseFn c m.disk.format)
              (afterMd t m (t.sparseFn c m.disk.format)),
            w.trace ++ ([.cp m.src m.dst, .sparse m.dst m.disk.format] ++
                        exportTailEvents m)⟩ := by
  unfold FileExportManager.exportSteps at h
  unfold DiskExportManager.copy at h
  cases h1 : f.copyE with
  | some e => rw [h1] at h; simp at h
  | none =>
  rw [h1] at h
  simp only [pseq] at h
  cases h2 : asImage (pyGet w.fs m.src) with
  | none => rw [h2] at h; simp at h
  | some c =>
  rw [h2] at h
  simp only [pseq_ok] at h
  unfold DiskExportManager.sparse at h
  cases h3 : f.sparseE with
  | some e => rw [h3] at h; simp at h
  | none =>
  rw [h3] at h
  simp only [pyGet_pySet_self, asImage, pseq_ok, pySet_pySet] at h
  unfold DiskExportManager.calc_sha at h
  cases h4 : f.shaE with
  | some e => rw [h4] at h; simp at h
  | none =>
  rw [h4] at h
  simp only [pyGet_pySet_self, asImage, pseq_ok] at h
  unfold DiskExportManager.update_lago_metadata at h
  cases h5 : f.updateE with
  | some e => rw [h5] at h; simp at h
  | none =>
  rw [h5] at h
  rw [pyGet_pySet_ne _ _ (dst_ne_hash m.dst)] at h
  simp only [pyGet_pySet_self, asImage, pseq_ok] at h
  unfold DiskExportManager.write_lago_metadata at h
  cases h6 : f.writeE with
  | some e => rw [h6] at h; simp at h
  | none =>
  rw [h6] at h
  simp only [pseq_ok] at h
  unfold DiskExportManager.compress at h
  cases h7 : m.do_compress with
  | false =>
      simp only [h7, eq_self_iff_true, if_true] at h
      simp only [PyResult.ok.injEq, Prod.mk.injEq] at h
      obtain ⟨hm', hw'⟩ := h
      refine ⟨c, rfl, rfl, rfl, rfl, rfl, ?_, rfl, ?_, ?_⟩
      · intro hx; exact absurd hx (by decide)
      · rw [← hm']; simp [afterMd]
      · rw [← hw']
        simp [exportFinalFs, tailFinalFs, afterMd, exportTailEvents, h7, List.append_assoc]
  | true =>
      simp only [h7] at h
      rw [if_neg (by simp)] at h
      cases h8 : f.compressE with
      | some e => rw [h8] at h; simp at h
      | none =>
      rw [h8] at h
      rw [pyGet_pySet_ne _ _ (dst_ne_metadata m.dst),
          pyGet_pySet_ne _ _ (dst_ne_hash m.dst)] at h
      simp only [pyGet_pySet_self, asImage] at h
      simp only [PyResult.ok.injEq, Prod.mk.injEq] at h
      obtain ⟨hm', hw'⟩ := h
      refine ⟨c, rfl, rfl, rfl, rfl, rfl, fun _ => rfl, rfl, ?_, ?_⟩
      · rw [← hm']; simp [afterMd]
      · rw [← hw']
        simp [exportFinalFs, tailFinalFs, afterMd, exportTailEvents, h7, List.append_assoc]

/-- Inversion of a successful run of the template pipeline's tail (from
`calc_sha` on), starting from a state whose destination holds content `rc`. -/
theorem templateTail_ok_inv (t : Tools) (f : FailSpec)
    (tmS tm' : TemplateExportManager) (wS w' : World) (rc : Nat)
    (hfs : asImage (pyGet wS.fs tmS.dst) = some rc)
    (h : TemplateExportManager.tailSteps t f (tmS, wS) = .ok (tm', w')) :
    f.shaE = none ∧ f.updateE = none ∧ f.writeE = none ∧
    (tmS.do_compress = true → f.compressE = none) ∧
    tm' = { tmS with toDiskExportManager :=
              { tmS.toDiskExportManager with
                  exported_metadata := templateMd t tmS rc } } ∧
    w' = ⟨tailFinalFs t tmS.toDiskExportManager wS.fs rc (templateMd t tmS rc),
          wS.trace ++ exportTailEvents tmS.toDiskExportManager⟩ := by
  rw [asImage_eq_some] at hfs
  unfold TemplateExportManager.tailSteps at h
  unfold liftT at h
  unfold DiskExportManager.calc_sha at h
  cases h4 : f.shaE with
  | some e => rw [h4] at h; simp at h
  | none =>
  rw [h4] at h
  rw [hfs] at h
  simp only [asImage, pseq_ok] at h
  unfold TemplateExportManager.update_lago_metadata at h
  unfold DiskExportManager.update_lago_metadata at h
  cases h5 : f.updateE with
  | some e => rw [h5] at h; simp at h
  | none =>
  rw [h5] at h
  rw [pyGet_pySet_ne _ _ (dst_ne_hash tmS.dst)] at h
  rw [hfs] at h
  simp only [asImage, pseq_ok] at h
  unfold DiskExportManager.write_lago_metadata at h
  cases h6 : f.writeE with
  | some e => rw [h6] at h; simp at h
  | none =>
  rw [h6] at h
  simp only [pseq_ok] at h
  unfold DiskExportManager.compress at h
  cases h7 : tmS.do_compress with
  | false =>
      simp only [h7, eq_self_iff_true, if_true] at h
      simp only [PyResult.ok.injEq, Prod.mk.injEq] at h
      obtain ⟨hm', hw'⟩ := h
      refine ⟨rfl, rfl, rfl, ?_, ?_, ?_⟩
      · intro hx; exact absurd hx (by decide)
      · rw [← hm']; simp [templateMd, afterMd, h7]
      · rw [← hw']
        simp [tailFinalFs, templateMd, afterMd, exportTailEvents, h7,
              List.append_assoc]
  | true =>
      simp only [h7] at h
      rw [if_neg (by simp)] at h
      cases h8 : f.compressE with
      | some e => rw [h8] at h; simp at h
      | none =>
      rw [h8] at h
      rw [pyGet_pySet_ne _ _ (dst_ne_metadata tmS.dst),
          pyGet_pySet_ne _ _ (dst_ne_hash tmS.dst)] at h
      rw [hfs] at h
      simp only [asImage] at h
      simp only [PyResult.ok.injEq, Prod.mk.injEq] at h
      obtain ⟨hm', hw'⟩ := h
      refine ⟨rfl, rfl, rfl, fun _ => rfl, ?_, ?_⟩
      · rw [← hm']; simp [templateMd, afterMd, h7]
      · rw [← hw']
        simp [tailFinalFs, templateMd, afterMd, exportTailEvents, h7,
              List.append_assoc]

/-- Structure eta for the template manager, collapsing the rebuilt state of a
lifted base step that did not change the manager. -/
@[simp] theorem tmEta (tm : TemplateExportManager) :
    ({ toDiskExportManager := tm.toDiskExportManager,
       standalone := tm.standalone,
       src_qemu_info := tm.src_qemu_info } : TemplateExportManager) = tm := rfl

/-- The three ways `TemplateExportManager.rebase` can succeed on a sparsified
destination of content `sc`: a length-1 chain (no-op), the standalone merge
(rebase onto the empty backing file), or the layered rebase onto
`'./' + basename` of the part after the first colon of chain element 0's
`'backing-filename'`, with `safe=False`.  `rc` is the resulting destination
content and `rEvs` the events emitted. -/
def rebaseOutcome (t : Tools) (tm : TemplateExportManager) (sc rc : Nat)
    (rEvs : List Event) : Prop :=
  (tm.src_qemu_info.length = 1 ∧ rc = sc ∧ rEvs = []) ∨
  (tm.src_qemu_info.length ≠ 1 ∧ tm.standalone = true ∧
     rc = t.rebaseFn sc "" true ∧ rEvs = [.qemuRebase tm.dst "" true]) ∨
  (tm.src_qemu_info.length ≠ 1 ∧ tm.standalone = false ∧
     tm.src_qemu_info.length ≤ 2 ∧
     ∃ e0 rest bf p, tm.src_qemu_info = e0 :: rest ∧
       e0.backing_filename = some bf ∧ afterFirstColon bf = some p ∧
       rc = t.rebaseFn sc ("./" ++ pyBasename p) false ∧
       rEvs = [.qemuRebase tm.dst ("./" ++ pyBasename p) false])

/-- Inversion of a successful template export step sequence: all failure
injections are unset, the source image exists, the rebase took one of its
three success shapes, and the final manager, filesystem and trace are the
straight-line results. -/
theorem templateExportSteps_ok_inv (t : Tools) (f : FailSpec)
    (tm tm' : TemplateExportManager) (w w' : World)
    (h : TemplateExportManager.exportSteps t f (tm, w) = .ok (tm', w')) :
    ∃ c rc rEvs,
      f.copyE = none ∧ f.sparseE = none ∧ f.rebaseE = none ∧
      f.shaE = none ∧ f.updateE = none ∧ f.writeE = none ∧
      (tm.do_compress = true → f.compressE = none) ∧
      asImage (pyGet w.fs tm.src) = some c ∧
      rebaseOutcome t tm (t.sparseFn c tm.disk.format) rc rEvs ∧
      tm' = { tm with toDiskExportManager :=
                { tm.toDiskExportManager with
                    exported_metadata := templateMd t tm rc } } ∧
      w' = ⟨exportFinalFs t tm.toDiskExportManager w.fs rc (templateMd t tm rc),
            w.trace ++ ([.cp tm.src tm.dst, .sparse tm.dst tm.disk.format] ++
                        rEvs ++
                        exportTailEvents tm.toDiskExportManager)⟩ := by
  unfold TemplateExportManager.exportSteps at h
  unfold liftT at h
  unfold DiskExportManager.copy at h
  cases h1 : f.copyE with
  | some e => rw [h1] at h; simp at h
  | none =>
  rw [h1] at h
  simp only [pseq] at h
  cases h2 : asImage (pyGet w.fs tm.src) with
  | none => rw [h2] at h; simp at h
  | some c =>
  rw [h2] at h
  simp only [pseq_ok, tmEta] at h
  unfold DiskExportManager.sparse at h
  cases h3 : f.sparseE with
  | some e => rw [h3] at h; simp at h
  | none =>
  rw [h3] at h
  simp only [pyGet_pySet_self, asImage, pseq_ok, pySet_pySet, tmEta] at h
  unfold TemplateExportManager.rebase at h
  cases h4 : f.rebaseE with
  | some e => rw [h4] at h; simp at h
  | none =>
  rw [h4] at h
  by_cases hl1 : tm.src_qemu_info.length = 1
  · rw [if_pos hl1] at h
    simp only [pseq_ok] at h
    obtain ⟨h5, h6, h7, h8, hm', hw'⟩ :=
      templateTail_ok_inv t f tm tm' _ w' (t.sparseFn c tm.disk.format)
        (by simp [asImage]) h
    refine ⟨c, t.sparseFn c tm.disk.format, [], rfl, rfl, rfl, h5, h6, h7, h8,
            rfl, Or.inl ⟨hl1, rfl, rfl⟩, hm', ?_⟩
    rw [hw']
    simp [exportFinalFs, List.append_assoc]
  · rw [if_neg hl1] at h
    cases hst : tm.standalone with
    | true =>
        rw [if_pos hst] at h
        simp only [pyGet_pySet_self, asImage, pseq_ok, pySet_pySet] at h
        obtain ⟨h5, h6, h7, h8, hm', hw'⟩ :=
          templateTail_ok_inv t f tm tm' _ w'
            (t.rebaseFn (t.sparseFn c tm.disk.format) "" true)
            (by simp [asImage]) h
        rw [hst] at hm'
        refine ⟨c, t.rebaseFn (t.sparseFn c tm.disk.format) "" true,
                [.qemuRebase tm.dst "" true], rfl, rfl, rfl, h5, h6, h7, h8,
                rfl, Or.inr (Or.inl ⟨hl1, hst, rfl, rfl⟩), hm', ?_⟩
        rw [hw']
        simp [exportFinalFs, List.append_assoc]
    | false =>
        rw [if_neg (by simp [hst])] at h
        by_cases hd2 : 2 < tm.src_qemu_info.length
        · rw [if_pos hd2] at h
          simp at h
        · rw [if_neg hd2] at h
          rcases hq : tm.src_qemu_info with _ | ⟨e0, rest⟩
          · rw [hq] at h; simp at h
          · rw [hq] at h
            cases hbf : e0.backing_filename with
            | none => simp [hbf] at h
            | some bf =>
            cases hsc : afterFirstColon bf with
            | none => simp [hbf, hsc] at h
            | some p =>
            simp only [hbf, hsc, pyGet_pySet_self, asImage, pseq_ok,
                       pySet_pySet] at h
            obtain ⟨h5, h6, h7, h8, hm', hw'⟩ :=
              templateTail_ok_inv t f tm tm' _ w'
                (t.rebaseFn (t.sparseFn c tm.disk.format)
                  ("./" ++ pyBasename p) false)
                (by simp [asImage]) h
            rw [hst, hq] at hm'
            refine ⟨c, t.rebaseFn (t.sparseFn c tm.disk.format)
                      ("./" ++ pyBasename p) false,
                    [.qemuRebase tm.dst ("./" ++ pyBasename p) false],
                    rfl, rfl, rfl, h5, h6, h7, h8, rfl,
                    Or.inr (Or.inr ⟨hl1, hst, by omega,
                      e0, rest, bf, p, hq, hbf, hsc, rfl, rfl⟩), hm', ?_⟩
            rw [hw']
            simp [exportFinalFs, List.append_assoc]

theorem fileExport_ok_iff (t : Tools) (f : FailSpec) (s s' : MState) :
    FileExportManager.export t f s = .ok s' ↔
    FileExportManager.exportSteps t f s = .ok s' := by
  unfold FileExportManager.export
  cases h : FileExportManager.exportSteps t f s with
  | ok s0 => simp
  | exn e0 s0 => obtain ⟨m0, w0⟩ := s0; simp

theorem fileExport_exn_iff (t : Tools) (f : FailSpec) (s : MState) (e : Err)
    (m' : DiskExportManager) (w' : World) :
    FileExportManager.export t f s = .exn e (m', w') ↔
    ∃ w₀, FileExportManager.exportSteps t f s = .exn e (m', w₀) ∧
      w' = rollbackW w₀ m'.dst := by
  unfold FileExportManager.export
  cases h : FileExportManager.exportSteps t f s with
  | ok s0 => simp
  | exn e0 s0 =>
      obtain ⟨m0, w0⟩ := s0
      simp only [PyResult.exn.injEq, Prod.mk.injEq]
      constructor
      · rintro ⟨he, hm, hw⟩
        exact ⟨w0, ⟨he, hm, rfl⟩, by rw [← hw, hm]⟩
      · rintro ⟨w₀, ⟨he, hm, hw₀⟩, hw⟩
        exact ⟨he, hm, by rw [hw, hw₀, hm]⟩

theorem templateExport_ok_iff (t : Tools) (f : FailSpec) (s s' : TState) :
    TemplateExportManager.export t f s = .ok s' ↔
    TemplateExportManager.exportSteps t f s = .ok s' := by
  unfold TemplateExportManager.export
  cases h : TemplateExportManager.exportSteps t f s with
  | ok s0 => simp
  | exn e0 s0 => obtain ⟨m0, w0⟩ := s0; simp

theorem templateExport_exn_iff (t : Tools) (f : FailSpec) (s : TState)
    (e : Err) (tm' : TemplateExportManager) (w' : World) :
    TemplateExportManager.export t f s = .exn e (tm', w') ↔
    ∃ w₀, TemplateExportManager.exportSteps t f s = .exn e (tm', w₀) ∧
      w' = rollbackW w₀ tm'.dst := by
  unfold TemplateExportManager.export
  cases h : TemplateExportManager.exportSteps t f s with
  | ok s0 => simp
  | exn e0 s0 =>
      obtain ⟨m0, w0⟩ := s0
      simp only [PyResult.exn.injEq, Prod.mk.injEq]
      constructor
      · rintro ⟨he, hm, hw⟩
        exact ⟨w0, ⟨he, hm, rfl⟩, by rw [← hw, hm]⟩
      · rintro ⟨w₀, ⟨he, hm, hw₀⟩, hw⟩
        exact ⟨he, hm, by rw [hw, hw₀, hm]⟩

/-- The sidecar and artifact lookups on the filesystem left by the tail of a
successful export. -/
theorem tailFinalFs_lookups (t : Tools) (m : DiskExportManager) (fs0 : FS)
    (rc : Nat) (md : PyDict) :
    pyGet (tailFinalFs t m fs0 rc md) (m.dst ++ ".hash") =
      some (.text (t.hashFn rc "sha1")) ∧
    pyGet (tailFinalFs t m fs0 rc md) (m.dst ++ ".metadata") =
      some (.jsonFile md) ∧
    (m.do_compress = true →
       pyGet (tailFinalFs t m fs0 rc md) (m.dst ++ ".xz") =
         some (.xz (t.compressFn rc)) ∧
       pyGet (tailFinalFs t m fs0 rc md) m.dst = none) ∧
    (m.do_compress = false →
       pyGet (tailFinalFs t m fs0 rc md) m.dst = pyGet fs0 m.dst) := by
  unfold tailFinalFs
  cases hb : m.do_compress with
  | true =>
      simp only [hb, eq_self_iff_true, if_true]
      refine ⟨?_, ?_, fun _ => ⟨?_, ?_⟩, fun hx => absurd hx (by decide)⟩
      · rw [pyGet_pyRemove_ne _ (hash_ne_dst m.dst),
            pyGet_pySet_ne _ _ (hash_ne_xz m.dst),
            pyGet_pySet_ne _ _ (hash_ne_metadata m.dst),
            pyGet_pySet_self]
      · rw [pyGet_pyRemove_ne _ (metadata_ne_dst m.dst),
            pyGet_pySet_ne _ _ (metadata_ne_xz m.dst),
            pyGet_pySet_self]
      · rw [pyGet_pyRemove_ne _ (xz_ne_dst m.dst), pyGet_pySet_self]
      · rw [pyGet_pyRemove_self]
  | false =>
      simp only [hb]
      rw [if_neg (by decide)]
      refine ⟨?_, ?_, fun hx => absurd hx (by decide), fun _ => ?_⟩
      · rw [pyGet_pySet_ne _ _ (hash_ne_metadata m.dst), pyGet_pySet_self]
      · rw [pyGet_pySet_self]
      · rw [pyGet_pySet_ne _ _ (dst_ne_metadata m.dst),
            pyGet_pySet_ne _ _ (dst_ne_hash m.dst)]

/-- The enrichment entries of the persisted metadata dict: whatever the
source metadata contained, the enriched keys hold the export-computed
values. -/
theorem afterMd_lookups (t : Tools) (m : DiskExportManager) (rc : Nat) :
    pyGet (afterMd t m rc) "size" = some (.n (t.sizeFn rc)) ∧
    pyGet (afterMd t m rc) "name" = some (.s m.name) ∧
    pyGet (afterMd t m rc) "version" = some (.s t.today) ∧
    pyGet (afterMd t m rc) "sha1" = some (.s (t.hashFn rc "sha1")) := by
  unfold afterMd
  refine ⟨?_, ?_, ?_, ?_⟩
  · rw [pyGet_pySet_ne _ _ (by decide : ("size" : String) ≠ "version"),
        pyGet_pySet_ne _ _ (by decide : ("size" : String) ≠ "name"),
        pyGet_pySet_self]
  · rw [pyGet_pySet_ne _ _ (by decide : ("name" : String) ≠ "version"),
        pyGet_pySet_self]
  · rw [pyGet_pySet_self]
  · rw [pyGet_pySet_ne _ _ (by decide : ("sha1" : String) ≠ "version"),
        pyGet_pySet_ne _ _ (by decide : ("sha1" : String) ≠ "name"),
        pyGet_pySet_ne _ _ (by decide : ("sha1" : String) ≠ "size"),
        pyGet_pySet_self]

/-- The same lookups on the template metadata dict, plus `base`. -/
theorem templateMd_lookups (t : Tools) (tm : TemplateExportManager) (rc : Nat) :
    pyGet (templateMd t tm rc) "size" = some (.n (t.sizeFn rc)) ∧
    pyGet (templateMd t tm rc) "name" = some (.s tm.name) ∧
    pyGet (templateMd t tm rc) "version" = some (.s t.today) ∧
    pyGet (templateMd t tm rc) "sha1" = some (.s (t.hashFn rc "sha1")) ∧
    pyGet (templateMd t tm rc) "base" =
      some (if tm.standalone = true then MVal.s "None"
            else MVal.s (pyBasename tm.src)) := by
  obtain ⟨ha, hb, hc, hd⟩ := afterMd_lookups t tm.toDiskExportManager rc
  unfold templateMd
  refine ⟨?_, ?_, ?_, ?_, ?_⟩
  · rw [pyGet_pySet_ne _ _ (by decide : ("size" : String) ≠ "base")]; exact ha
  · rw [pyGet_pySet_ne _ _ (by decide : ("name" : String) ≠ "base")]; exact hb
  · rw [pyGet_pySet_ne _ _ (by decide : ("version" : String) ≠ "base")]
    exact hc
  · rw [pyGet_pySet_ne _ _ (by decide : ("sha1" : String) ≠ "base")]; exact hd
  · rw [pyGet_pySet_self]

/-- Concrete sample tools for witnesses: image bytes are numbers, the
external transformations are simple arithmetic, the digest prints the
content. -/
def sTools : Tools :=
  { expandvars := fun s => s
    sparseFn := fun c _ => c + 1
    rebaseFn := fun c _ _ => c + 2
    hashFn := fun c a => String.mk (List.replicate c 'h') ++ a
    compressFn := fun c => 2 * c
    sizeFn := fun c => c + 100
    today := "20261012.0"
    qemu_info := fun _ => [] }

/-- No injected failures. -/
def sFnone : FailSpec := ⟨none, none, none, none, none, none, none⟩

/-- The sparsify step fails. -/
def sFsparse : FailSpec := { sFnone with sparseE := some (.toolFailure "sparse") }

def sDisk : Disk :=
  { path := "/w/disk1", type := "file", format := "qcow2",
    metadata := [("k", .s "v")] }

def sM : DiskExportManager := DiskExportManager.init sTools "/out" "file" sDisk true

def sW : World := ⟨[("/w/disk1", .image 7)], []⟩

def sDiskT : Disk :=
  { path := "/w/layer", type := "template", format := "qcow2",
    metadata := [("size", .n 1), ("name", .s "old"), ("sha1", .s "old"),
                 ("version", .s "old"), ("base", .s "old")] }

/-- A non-standalone template manager over a chain of length 2. -/
def sTm : TemplateExportManager :=
  { toDiskExportManager :=
      DiskExportManager.init sTools "/out" "template" sDiskT false
    standalone := false
    src_qemu_info := [⟨some "qcow2:/bases/base.img"⟩, ⟨none⟩] }

def sWT : World := ⟨[("/w/layer", .image 3)], []⟩

/-- A world in which the destination of `sTm` already holds an image, as the
rebase step finds it after copy and sparsify. -/
def sWTd : World := ⟨[("/out/layer", .image 3)], []⟩

def sDisk3 : Disk :=
  { path := "/w/t3", type := "template", format := "qcow2", metadata := [] }

/-- A non-standalone template manager over a chain of length 3. -/
def sTm3 : TemplateExportManager :=
  { toDiskExportManager :=
      DiskExportManager.init sTools "/out" "template" sDisk3 false
    standalone := false
    src_qemu_info := [⟨some "qcow2:/a/b1"⟩, ⟨some "qcow2:/a/b2"⟩, ⟨none⟩] }

def sW3 : World := ⟨[("/w/t3", .image 5)], []⟩

def sDiskBad : Disk :=
  { path := "/w/cd", type := "cdrom", format := "iso", metadata := [] }

/-- C1: the claim is right about the intent and the code is wrong.  At a
concrete export whose sparsify step fails after `utils.cp` has created the
destination file, the rollback cleanup does run before the original error is
surfaced unchanged (the `rmtree` action is the last event of the failure
state) — but `shutil.rmtree(self.dst, ignore_errors=True)` on the regular
file at the destination is a swallowed `NotADirectoryError` no-op, so the
partial artifact is still present at the destination path afterwards,
contradicting "the destination path does not exist afterward". -/
theorem c1_rollback_ineffective :
    FileExportManager.export sTools sFsparse (sM, sW) =
      .exn (.toolFailure "sparse")
        (sM, ⟨[("/w/disk1", .image 7), ("/out/disk1", .image 7)],
              [.cp "/w/disk1" "/out/disk1", .rmtree "/out/disk1"]⟩) ∧
    pyGet ((FileExportManager.export sTools sFsparse (sM, sW)).state).2.fs
      sM.dst = some (.image 7) := by
  exact ⟨by decide, by decide⟩

/-- C2 counterexample: on a concrete non-standalone template export with a
backing chain of length 3, the export does fail with the layer-depth
`LagoUserException`, but the copy step has already run when the error is
raised — its `cp` event is in the final trace — and a destination artifact
exists afterwards (the copied, sparsified file, which the rollback's
`rmtree`-on-a-regular-file cannot remove), refuting both "before any file is
copied" and "no destination artifact is created". -/
theorem c2_counterexample :
    TemplateExportManager.export sTools sFnone (sTm3, sW3) =
      .exn (.lagoUserException layerDepthMsg)
        (sTm3, ⟨[("/w/t3", .image 5), ("/out/t3", .image 6)],
                [.cp "/w/t3" "/out/t3", .sparse "/out/t3" "qcow2",
                 .rmtree "/out/t3"]⟩) ∧
    Event.cp "/w/t3" "/out/t3" ∈
      ([.cp "/w/t3" "/out/t3", .sparse "/out/t3" "qcow2",
        .rmtree "/out/t3"] : List Event) ∧
    pyGet ((TemplateExportManager.export sTools sFnone (sTm3, sW3)).state).2.fs
      sTm3.dst = some (.image 6) := by
  refine ⟨by decide, by decide, by decide⟩

/-- C2 (amended): for every non-standalone template export whose backing
chain is longer than 2 and whose copy/sparsify steps do not themselves fail,
the export fails with the `UnsupportedLayerDepth` error
(`LagoUserException` with the layer-depth message), raised before the rebase
side effect is attempted (no `qemuRebase` event is emitted) — but after the
copy and sparsify steps have run — and the rollback cleanup that then runs,
being `shutil.rmtree` of a regular file with errors ignored, leaves the
copied and sparsified artifact at the destination path. -/
theorem c2_layer_depth (t : Tools) (f : FailSpec)
    (tm : TemplateExportManager) (w : World) (c : Nat)
    (hst : tm.standalone = false) (hlen : 2 < tm.src_qemu_info.length)
    (hc : f.copyE = none) (hs : f.sparseE = none) (hr : f.rebaseE = none)
    (hsrc : asImage (pyGet w.fs tm.src) = some c) :
    TemplateExportManager.export t f (tm, w) =
      .exn (.lagoUserException layerDepthMsg)
        (tm, ⟨pySet w.fs tm.dst (.image (t.sparseFn c tm.disk.format)),
              w.trace ++ [.cp tm.src tm.dst, .sparse tm.dst tm.disk.format,
                          .rmtree tm.dst]⟩) ∧
    pyGet (pySet w.fs tm.dst (.image (t.sparseFn c tm.disk.format))) tm.dst =
      some (.image (t.sparseFn c tm.disk.format)) ∧
    (∀ b sf, Event.qemuRebase tm.dst b sf ∉
       ([.cp tm.src tm.dst, .sparse tm.dst tm.disk.format,
         .rmtree tm.dst] : List Event)) := by
  rw [asImage_eq_some] at hsrc
  refine ⟨?_, by simp, by intro b sf; simp⟩
  unfold TemplateExportManager.export TemplateExportManager.exportSteps
  unfold liftT DiskExportManager.copy DiskExportManager.sparse
  unfold TemplateExportManager.rebase
  rw [hc, hs, hr, hsrc]
  simp only [asImage, pseq_ok, pseq, pyGet_pySet_self, pySet_pySet, tmEta]
  rw [if_neg (by omega : ¬tm.src_qemu_info.length = 1)]
  rw [if_neg (by simp [hst])]
  rw [if_pos hlen]
  simp [rollbackW, List.append_assoc]

/-- C2 witness: the amended theorem at the concrete chain-length-3 export:
the sparsified artifact is still at the destination path after the failed
export. -/
theorem c2_layer_depth_witness :
    (sTm3.standalone = false ∧ 2 < sTm3.src_qemu_info.length ∧
       asImage (pyGet sW3.fs sTm3.src) = some 5) ∧
    pyGet (pySet sW3.fs sTm3.dst
      (.image (sTools.sparseFn 5 sTm3.disk.format))) sTm3.dst =
      some (.image (sTools.sparseFn 5 sTm3.disk.format)) := by
  refine ⟨⟨by decide, by decide, by decide⟩, ?_⟩
  exact (c2_layer_depth sTools sFnone sTm3 sW3 5 (by decide) (by decide)
    rfl rfl rfl (by decide)).2.1

/-- C3: for every non-standalone template export with a backing chain of
length exactly 2 (and no injected rebase failure), the rebase step rewrites
the destination's backing-file pointer to the relative reference
`'./' ++ basename` of the immediate backing file's path taken from chain
element 0 (the part after the format prefix ending at the first colon, as
`parent.split(':', 1)[1]` extracts it), using the unsafe rebase mode
(`safe := false`), and emits exactly that rebase action. -/
theorem c3_rebase_relative (t : Tools) (f : FailSpec)
    (tm : TemplateExportManager) (w : World) (c : Nat)
    (e0 e1 : QemuEntry) (bf p : String)
    (hst : tm.standalone = false)
    (hchain : tm.src_qemu_info = [e0, e1])
    (hbf : e0.backing_filename = some bf)
    (hsplit : afterFirstColon bf = some p)
    (hr : f.rebaseE = none)
    (hdst : asImage (pyGet w.fs tm.dst) = some c) :
    TemplateExportManager.rebase t f (tm, w) =
      .ok (tm, ⟨pySet w.fs tm.dst
                  (.image (t.rebaseFn c ("./" ++ pyBasename p) false)),
                w.trace ++ [.qemuRebase tm.dst ("./" ++ pyBasename p)
                              false]⟩) := by
  rw [asImage_eq_some] at hdst
  unfold TemplateExportManager.rebase
  rw [hr, hchain]
  rw [if_neg (by simp : ¬([e0, e1] : List QemuEntry).length = 1)]
  rw [if_neg (by simp [hst])]
  rw [if_neg (by simp : ¬2 < ([e0, e1] : List QemuEntry).length)]
  simp [hbf, hsplit, hdst, asImage]

/-- C3 witness: a concrete layered rebase over the chain
`[backing-filename = "qcow2:/bases/base.img", base]`: the new backing
pointer is `./base.img` and the unsafe mode is used. -/
theorem c3_rebase_relative_witness :
    (sTm.standalone = false ∧
       sTm.src_qemu_info = [⟨some "qcow2:/bases/base.img"⟩, ⟨none⟩] ∧
       afterFirstColon "qcow2:/bases/base.img" = some "/bases/base.img") ∧
    TemplateExportManager.rebase sTools sFnone (sTm, sWTd) =
      .ok (sTm, ⟨pySet sWTd.fs sTm.dst
                   (.image (sTools.rebaseFn 3 ("./" ++ pyBasename "/bases/base.img") false)),
                 sWTd.trace ++ [.qemuRebase sTm.dst
                   ("./" ++ pyBasename "/bases/base.img") false]⟩) := by
  refine ⟨⟨by decide, by decide, by decide⟩, ?_⟩
  exact c3_rebase_relative sTools sFnone sTm sWTd 3 ⟨some "qcow2:/bases/base.img"⟩
    ⟨none⟩ "qcow2:/bases/base.img" "/bases/base.img" (by decide) (by decide)
    (by decide) (by decide) rfl (by decide)

/-- C4: the step order of every successful export is fixed: the trace it
appends is exactly copy, sparsify, (for templates: at most one rebase
action), checksum (`getHash` then the `.hash` write), the `.metadata` write,
and only then the compression actions when the flag is set.  In particular
the checksum is taken after sparsify and after any rebase, and the metadata
sidecar is persisted before compression. -/
theorem c4_step_order (t : Tools) (f : FailSpec) (m : DiskExportManager)
    (tm : TemplateExportManager) (w : World) :
    (∀ m' w', FileExportManager.export t f (m, w) = .ok (m', w') →
       w'.trace = w.trace ++
         ([.cp m.src m.dst, .sparse m.dst m.disk.format] ++
          exportTailEvents m)) ∧
    (∀ tm' w', TemplateExportManager.export t f (tm, w) = .ok (tm', w') →
       ∃ rEvs, (rEvs = [] ∨ ∃ b sf, rEvs = [Event.qemuRebase tm.dst b sf]) ∧
         w'.trace = w.trace ++
           ([.cp tm.src tm.dst, .sparse tm.dst tm.disk.format] ++ rEvs ++
            exportTailEvents tm.toDiskExportManager)) := by
  constructor
  · intro m' w' h
    rw [fileExport_ok_iff] at h
    obtain ⟨c, _, _, _, _, _, _, _, _, hw'⟩ :=
      fileExportSteps_ok_inv t f m w m' w' h
    rw [hw']
  · intro tm' w' h
    rw [templateExport_ok_iff] at h
    obtain ⟨c, rc, rEvs, _, _, _, _, _, _, _, _, hout, _, hw'⟩ :=
      templateExportSteps_ok_inv t f tm tm' w w' h
    refine ⟨rEvs, ?_, by rw [hw']⟩
    rcases hout with ⟨_, _, hrE⟩ | ⟨_, _, _, hrE⟩ |
      ⟨_, _, _, e0, rest, bf, q, _, _, _, _, hrE⟩
    · exact Or.inl hrE
    · exact Or.inr ⟨"", true, hrE⟩
    · exact Or.inr ⟨"./" ++ pyBasename q, false, hrE⟩

/-- C4 witness: the order at a concrete successful compressing export. -/
theorem c4_step_order_witness :
    (∃ m' w', FileExportManager.export sTools sFnone (sM, sW) = .ok (m', w')
       ∧ w'.trace = sW.trace ++
           ([.cp sM.src sM.dst, .sparse sM.dst sM.disk.format] ++
            exportTailEvents sM)) := by
  have hok :
      (FileExportManager.export sTools sFnone (sM, sW)).isOk = true := by
    decide
  cases hr : FileExportManager.export sTools sFnone (sM, sW) with
  | exn e s => rw [hr] at hok; cases hok
  | ok s' =>
      obtain ⟨m', w'⟩ := s'
      exact ⟨m', w', rfl,
        (c4_step_order sTools sFnone sM sTm sW).1 m' w' hr⟩

/-- C5: for every successful export (either pipeline) there is a
pre-compression artifact content `cpre` — the content left at the
destination when the flag is off, and the content the compressed sidecar was
computed from when it is on — such that the `.hash` sidecar holds exactly
the digest of `cpre`, and the persisted `.metadata` JSON maps the
checksum-algorithm key `"sha1"` to that same digest string. -/
theorem c5_checksum_roundtrip (t : Tools) (f : FailSpec)
    (m : DiskExportManager) (tm : TemplateExportManager) (w : World) :
    (∀ m' w', FileExportManager.export t f (m, w) = .ok (m', w') →
       ∃ cpre,
         pyGet w'.fs (m.dst ++ ".hash") =
           some (.text (t.hashFn cpre "sha1")) ∧
         (∃ md, pyGet w'.fs (m.dst ++ ".metadata") = some (.jsonFile md) ∧
            pyGet md "sha1" = some (.s (t.hashFn cpre "sha1"))) ∧
         (m.do_compress = true →
            pyGet w'.fs (m.dst ++ ".xz") = some (.xz (t.compressFn cpre))) ∧
         (m.do_compress = false →
            pyGet w'.fs m.dst = some (.image cpre))) ∧
    (∀ tm' w', TemplateExportManager.export t f (tm, w) = .ok (tm', w') →
       ∃ cpre,
         pyGet w'.fs (tm.dst ++ ".hash") =
           some (.text (t.hashFn cpre "sha1")) ∧
         (∃ md, pyGet w'.fs (tm.dst ++ ".metadata") = some (.jsonFile md) ∧
            pyGet md "sha1" = some (.s (t.hashFn cpre "sha1"))) ∧
         (tm.do_compress = true →
            pyGet w'.fs (tm.dst ++ ".xz") = some (.xz (t.compressFn cpre))) ∧
         (tm.do_compress = false →
            pyGet w'.fs tm.dst = some (.image cpre))) := by
  constructor
  · intro m' w' h
    rw [fileExport_ok_iff] at h
    obtain ⟨c, _, _, _, _, _, _, _, _, hw'⟩ :=
      fileExportSteps_ok_inv t f m w m' w' h
    obtain ⟨hh, hmd, hcz, hnc⟩ :=
      tailFinalFs_lookups t m (pySet w.fs m.dst
        (.image (t.sparseFn c m.disk.format)))
        (t.sparseFn c m.disk.format) (afterMd t m (t.sparseFn c m.disk.format))
    refine ⟨t.sparseFn c m.disk.format, ?_, ?_, ?_, ?_⟩
    · rw [hw']; exact hh
    · rw [hw']
      refine ⟨_, hmd, ?_⟩
      exact (afterMd_lookups t m _).2.2.2
    · intro hb; rw [hw']; exact (hcz hb).1
    · intro hb; rw [hw']
      unfold exportFinalFs
      rw [hnc hb, pyGet_pySet_self]
  · intro tm' w' h
    rw [templateExport_ok_iff] at h
    obtain ⟨c, rc, rEvs, _, _, _, _, _, _, _, _, _, _, hw'⟩ :=
      templateExportSteps_ok_inv t f tm tm' w w' h
    obtain ⟨hh, hmd, hcz, hnc⟩ :=
      tailFinalFs_lookups t tm.toDiskExportManager
        (pySet w.fs tm.dst (.image rc)) rc (templateMd t tm rc)
    refine ⟨rc, ?_, ?_, ?_, ?_⟩
    · rw [hw']; exact hh
    · rw [hw']
      refine ⟨_, hmd, ?_⟩
      exact (templateMd_lookups t tm rc).2.2.2.1
    · intro hb; rw [hw']; exact (hcz hb).1
    · intro hb; rw [hw']
      unfold exportFinalFs
      rw [hnc hb, pyGet_pySet_self]

/-- C5 witness: at a concrete compressing export, the `.hash` sidecar, the
`sha1` metadata entry and the compressed artifact all come from the same
pre-compression content. -/
theorem c5_checksum_roundtrip_witness :
    (∃ m' w', FileExportManager.export sTools sFnone (sM, sW) = .ok (m', w')
       ∧ ∃ cpre,
           pyGet w'.fs (sM.dst ++ ".hash") =
             some (.text (sTools.hashFn cpre "sha1")) ∧
           (∃ md, pyGet w'.fs (sM.dst ++ ".metadata") = some (.jsonFile md) ∧
              pyGet md "sha1" = some (.s (sTools.hashFn cpre "sha1")))) := by
  have hok :
      (FileExportManager.export sTools sFnone (sM, sW)).isOk = true := by
    decide
  cases hr : FileExportManager.export sTools sFnone (sM, sW) with
  | exn e s => rw [hr] at hok; cases hok
  | ok s' =>
      obtain ⟨m', w'⟩ := s'
      obtain ⟨cpre, hh, hmd, _, _⟩ :=
        (c5_checksum_roundtrip sTools sFnone sM sTm sW).1 m' w' hr
      exact ⟨m', w', rfl, cpre, hh, hmd⟩

/-- C6: no export — successful or failed, either pipeline — ever mutates the
caller's disk descriptor: the `disk` field of the final manager state is the
input descriptor unchanged; and construction seeds `exported_metadata` with
a (deep, value-semantics) copy of `disk['metadata']`, so the enrichment
writes go only to that copy. -/
theorem c6_source_disk_not_mutated (t : Tools) (f : FailSpec)
    (m : DiskExportManager) (tm : TemplateExportManager) (w : World)
    (dst disk_type : String) (disk : Disk) (dc : Bool) :
    ((FileExportManager.export t f (m, w)).state).1.disk = m.disk ∧
    ((TemplateExportManager.export t f (tm, w)).state).1.disk = tm.disk ∧
    (DiskExportManager.init t dst disk_type disk dc).disk = disk ∧
    (DiskExportManager.init t dst disk_type disk dc).exported_metadata =
      disk.metadata := by
  refine ⟨(fileExport_state_frame t f (m, w)).2.2.2.2.1,
          (templateExport_state_frame t f (tm, w)).1.2.2.2.2.1, rfl, rfl⟩

/-- C7 counterexample: at a concrete successful export with the compress
flag set, nothing remains at the destination path itself — the compressed
form lives at the sibling path `dst ++ ".xz"` — refuting "only the
compressed form remains at the same path". -/
theorem c7_counterexample :
    (FileExportManager.export sTools sFnone (sM, sW)).isOk = true ∧
    pyGet ((FileExportManager.export sTools sFnone (sM, sW)).state).2.fs
      sM.dst = none ∧
    pyGet ((FileExportManager.export sTools sFnone (sM, sW)).state).2.fs
      (sM.dst ++ ".xz") = some (.xz 16) := by
  refine ⟨by decide, by decide, by decide⟩

/-- C7 (amended): with the compress flag false the compress step returns the
state unchanged — no filesystem change, no deletion, no event; with the flag
true, after a successful export the original uncompressed destination file
no longer exists and the compressed form of the pre-compression content
remains at the destination path extended with the compression suffix (a
sibling file), not at the destination path itself. -/
theorem c7_compress_flag (t : Tools) (f : FailSpec) (m : DiskExportManager)
    (tm : TemplateExportManager) (w : World) :
    (∀ s : MState, s.1.do_compress = false →
       DiskExportManager.compress t f s = .ok s) ∧
    (∀ m' w', m.do_compress = true →
       FileExportManager.export t f (m, w) = .ok (m', w') →
       pyGet w'.fs m.dst = none ∧
       ∃ cpre, pyGet w'.fs (m.dst ++ ".xz") =
         some (.xz (t.compressFn cpre))) ∧
    (∀ tm' w', tm.do_compress = true →
       TemplateExportManager.export t f (tm, w) = .ok (tm', w') →
       pyGet w'.fs tm.dst = none ∧
       ∃ cpre, pyGet w'.fs (tm.dst ++ ".xz") =
         some (.xz (t.compressFn cpre))) := by
  refine ⟨?_, ?_, ?_⟩
  · intro s hs
    unfold DiskExportManager.compress
    rw [if_pos hs]
  · intro m' w' hb h
    rw [fileExport_ok_iff] at h
    obtain ⟨c, _, _, _, _, _, _, _, _, hw'⟩ :=
      fileExportSteps_ok_inv t f m w m' w' h
    obtain ⟨_, _, hcz, _⟩ :=
      tailFinalFs_lookups t m (pySet w.fs m.dst
        (.image (t.sparseFn c m.disk.format)))
        (t.sparseFn c m.disk.format) (afterMd t m (t.sparseFn c m.disk.format))
    refine ⟨?_, t.sparseFn c m.disk.format, ?_⟩
    · rw [hw']; exact (hcz hb).2
    · rw [hw']; exact (hcz hb).1
  · intro tm' w' hb h
    rw [templateExport_ok_iff] at h
    obtain ⟨c, rc, rEvs, _, _, _, _, _, _, _, _, _, _, hw'⟩ :=
      templateExportSteps_ok_inv t f tm tm' w w' h
    obtain ⟨_, _, hcz, _⟩ :=
      tailFinalFs_lookups t tm.toDiskExportManager
        (pySet w.fs tm.dst (.image rc)) rc (templateMd t tm rc)
    refine ⟨?_, rc, ?_⟩
    · rw [hw']; exact (hcz hb).2
    · rw [hw']; exact (hcz hb).1

/-- C7 witness: the amended theorem at the concrete compressing export. -/
theorem c7_compress_flag_witness :
    (sM.do_compress = true) ∧
    (∃ m' w', FileExportManager.export sTools sFnone (sM, sW) = .ok (m', w')
       ∧ pyGet w'.fs sM.dst = none ∧
         ∃ cpre, pyGet w'.fs (sM.dst ++ ".xz") =
           some (.xz (sTools.compressFn cpre))) := by
  refine ⟨by decide, ?_⟩
  have hok :
      (FileExportManager.export sTools sFnone (sM, sW)).isOk = true := by
    decide
  cases hr : FileExportManager.export sTools sFnone (sM, sW) with
  | exn e s => rw [hr] at hok; cases hok
  | ok s' =>
      obtain ⟨m', w'⟩ := s'
      obtain ⟨hnone, cpre, hxz⟩ :=
        (c7_compress_flag sTools sFnone sM sTm sW).2.1 m' w' (by decide) hr
      exact ⟨m', w', rfl, hnone, cpre, hxz⟩

/-- C8: variant resolution maps exactly `file` and `empty` to the plain
pipeline and `template` to the template pipeline (given the mandatory
`standalone` keyword), and for every other disk type it fails with the
`UnsupportedDiskType` `LagoUserException` naming the offending type, with
the world returned unchanged — before any side effect. -/
theorem c8_variant_resolution (t : Tools) (dst : String) (disk : Disk)
    (dc : Bool) (kwargs : List (String × Bool)) (w : World) (st : Bool) :
    ((disk.type = "file" ∨ disk.type = "empty") →
       DiskExportManager.get_instance_by_type t dst disk dc kwargs w =
         .ok (.plain (DiskExportManager.init t dst disk.type disk dc)) w) ∧
    (disk.type = "template" → pyGet kwargs "standalone" = some st →
       DiskExportManager.get_instance_by_type t dst disk dc kwargs w =
         .ok (.template
               { toDiskExportManager :=
                   DiskExportManager.init t dst disk.type disk dc
                 standalone := st
                 src_qemu_info := t.qemu_info
                   (DiskExportManager.init t dst disk.type disk dc).src })
             ⟨w.fs, w.trace ++
               [.qemuInfo (DiskExportManager.init t dst disk.type disk dc).src]⟩) ∧
    (disk.type ≠ "file" → disk.type ≠ "empty" → disk.type ≠ "template" →
       DiskExportManager.get_instance_by_type t dst disk dc kwargs w =
         .exn (.lagoUserException
                 ("Export is not supported for disk type " ++ disk.type)) w) := by
  refine ⟨?_, ?_, ?_⟩
  · rintro (hty | hty) <;>
    · unfold DiskExportManager.get_instance_by_type
      rw [hty]
      rfl
  · intro hty hkw
    unfold DiskExportManager.get_instance_by_type
    rw [hty, hkw]
    rfl
  · intro h1 h2 h3
    unfold DiskExportManager.get_instance_by_type
    simp [HANDLERS, pyGet, h1, h2, h3]

/-- C8 witness: resolution at the three concrete supported types and at an
unsupported one. -/
theorem c8_variant_resolution_witness :
    (sDiskBad.type ≠ "file" ∧ sDiskBad.type ≠ "empty" ∧
       sDiskBad.type ≠ "template") ∧
    DiskExportManager.get_instance_by_type sTools "/out" sDiskBad false [] sW =
      .exn (.lagoUserException
              ("Export is not supported for disk type " ++ sDiskBad.type))
        sW := by
  refine ⟨⟨by decide, by decide, by decide⟩, ?_⟩
  exact (c8_variant_resolution sTools "/out" sDiskBad false [] sW true).2.2
    (by decide) (by decide) (by decide)

/-- C9: constructing the template variant without a `standalone` keyword
argument fails with `KeyError` (not the `UnsupportedDiskType` error), with
the world unchanged — in particular before the backing-chain inspection of
the source image emits its `qemuInfo` event; the plain variant (`file` and
`empty`) constructs fine without it, so `standalone` is mandatory for the
template variant only. -/
theorem c9_standalone_mandatory (t : Tools) (dst : String) (disk : Disk)
    (dc : Bool) (kwargs : List (String × Bool)) (w : World) :
    (disk.type = "template" → pyGet kwargs "standalone" = none →
       DiskExportManager.get_instance_by_type t dst disk dc kwargs w =
         .exn (.keyError "standalone") w) ∧
    ((disk.type = "file" ∨ disk.type = "empty") →
       ∃ mi, DiskExportManager.get_instance_by_type t dst disk dc kwargs w =
         .ok (.plain mi) w) := by
  constructor
  · intro hty hkw
    unfold DiskExportManager.get_instance_by_type
    rw [hty, hkw]
    rfl
  · rintro (hty | hty) <;>
    · refine ⟨DiskExportManager.init t dst disk.type disk dc, ?_⟩
      unfold DiskExportManager.get_instance_by_type
      rw [hty]
      rfl

/-- C9 witness: a concrete template construction with empty kwargs raises
`KeyError 'standalone'` and leaves the world untouched (no inspection ran);
a concrete `file` construction with the same empty kwargs succeeds. -/
theorem c9_standalone_mandatory_witness :
    (sDiskT.type = "template" ∧
       pyGet ([] : List (String × Bool)) "standalone" = none) ∧
    DiskExportManager.get_instance_by_type sTools "/out" sDiskT false [] sW =
      .exn (.keyError "standalone") sW := by
  refine ⟨⟨by decide, by decide⟩, ?_⟩
  exact (c9_standalone_mandatory sTools "/out" sDiskT false [] sW).1
    (by decide) (by decide)

/-- C10: for every successful export — whatever the caller-supplied source
metadata contained, including same-named keys — the persisted `.metadata`
JSON maps `size`, `name`, `version` and `sha1` (and `base` for the template
variant) to the export-computed values: the enrichment writes overwrite
same-named keys copied from the source metadata. -/
theorem c10_enrichment_overwrites (t : Tools) (f : FailSpec)
    (m : DiskExportManager) (tm : TemplateExportManager) (w : World) :
    (∀ m' w', FileExportManager.export t f (m, w) = .ok (m', w') →
       ∃ md rc, pyGet w'.fs (m.dst ++ ".metadata") = some (.jsonFile md) ∧
         pyGet md "size" = some (.n (t.sizeFn rc)) ∧
         pyGet md "name" = some (.s m.name) ∧
         pyGet md "version" = some (.s t.today) ∧
         pyGet md "sha1" = some (.s (t.hashFn rc "sha1"))) ∧
    (∀ tm' w', TemplateExportManager.export t f (tm, w) = .ok (tm', w') →
       ∃ md rc, pyGet w'.fs (tm.dst ++ ".metadata") = some (.jsonFile md) ∧
         pyGet md "size" = some (.n (t.sizeFn rc)) ∧
         pyGet md "name" = some (.s tm.name) ∧
         pyGet md "version" = some (.s t.today) ∧
         pyGet md "sha1" = some (.s (t.hashFn rc "sha1")) ∧
         pyGet md "base" = some (if tm.standalone = true then MVal.s "None"
                                 else MVal.s (pyBasename tm.src))) := by
  constructor
  · intro m' w' h
    rw [fileExport_ok_iff] at h
    obtain ⟨c, _, _, _, _, _, _, _, _, hw'⟩ :=
      fileExportSteps_ok_inv t f m w m' w' h
    obtain ⟨_, hmd, _, _⟩ :=
      tailFinalFs_lookups t m (pySet w.fs m.dst
        (.image (t.sparseFn c m.disk.format)))
        (t.sparseFn c m.disk.format) (afterMd t m (t.sparseFn c m.disk.format))
    obtain ⟨h1, h2, h3, h4⟩ := afterMd_lookups t m (t.sparseFn c m.disk.format)
    exact ⟨afterMd t m (t.sparseFn c m.disk.format),
           t.sparseFn c m.disk.format, by rw [hw']; exact hmd, h1, h2, h3, h4⟩
  · intro tm' w' h
    rw [templateExport_ok_iff] at h
    obtain ⟨c, rc, rEvs, _, _, _, _, _, _, _, _, _, _, hw'⟩ :=
      templateExportSteps_ok_inv t f tm tm' w w' h
    obtain ⟨_, hmd, _, _⟩ :=
      tailFinalFs_lookups t tm.toDiskExportManager
        (pySet w.fs tm.dst (.image rc)) rc (templateMd t tm rc)
    obtain ⟨h1, h2, h3, h4, h5⟩ := templateMd_lookups t tm rc
    exact ⟨templateMd t tm rc, rc, by rw [hw']; exact hmd,
           h1, h2, h3, h4, h5⟩

/-- C10 witness: a concrete layered template export whose source metadata
already binds `size`, `name`, `sha1`, `version` and `base` to stale values;
the persisted entries are the export-computed ones. -/
theorem c10_enrichment_witness :
    (sTm.exported_metadata =
       [("size", .n 1), ("name", .s "old"), ("sha1", .s "old"),
        ("version", .s "old"), ("base", .s "old")]) ∧
    (∃ tm' w',
       TemplateExportManager.export sTools sFnone (sTm, sWT) = .ok (tm', w')
       ∧ ∃ md rc,
           pyGet w'.fs (sTm.dst ++ ".metadata") = some (.jsonFile md) ∧
           pyGet md "size" = some (.n (sTools.sizeFn rc)) ∧
           pyGet md "name" = some (.s sTm.name) ∧
           pyGet md "version" = some (.s sTools.today) ∧
           pyGet md "sha1" = some (.s (sTools.hashFn rc "sha1")) ∧
           pyGet md "base" = some (if sTm.standalone = true then MVal.s "None"
                                   else MVal.s (pyBasename sTm.src))) := by
  refine ⟨by decide, ?_⟩
  have hok :
      (TemplateExportManager.export sTools sFnone (sTm, sWT)).isOk = true := by
    decide
  cases hr : TemplateExportManager.export sTools sFnone (sTm, sWT) with
  | exn e s => rw [hr] at hok; cases hok
  | ok s' =>
      obtain ⟨tm', w'⟩ := s'
      obtain ⟨md, rc, hmd, h1, h2, h3, h4, h5⟩ :=
        (c10_enrichment_overwrites sTools sFnone sM sTm sWT).2 tm' w' hr
      exact ⟨tm', w', rfl, md, rc, hmd, h1, h2, h3, h4, h5⟩

end LagoExport
